import Mathlib

/-!
Verification development for the NYT-LLM-Arena run execution engine.

The two puzzle environments (`ConnectionsEnv`, `CrosswordEnv`) and the
per-run step loop of the runner are embedded shallowly: the mutable class
state of each environment becomes an explicit state record, each private
handler becomes a pure function `State → ... → State × Feedback`, and
`step` becomes `Option State → Action → Except String (State × Feedback)`
(a thrown `Error` is an `Except.error`).  Human-readable feedback messages
are not modelled; every other feedback field is.
-/

/-- Uppercase every character, as `String.toUpperCase` does (structural
recursion on the character list so that closed terms reduce). -/
def upperChars (l : List Char) : List Char := l.map Char.toUpper

/-- Drop leading and trailing whitespace from a character list, as
`String.trim` does. -/
def trimChars (l : List Char) : List Char :=
  ((l.dropWhile Char.isWhitespace).reverse.dropWhile Char.isWhitespace).reverse

namespace Conn

/-- Word normalization used by `ConnectionsEnv.handleSubmitGroup`:
`w.toUpperCase().trim()`. -/
def normalize (s : String) : String := ⟨trimChars (upperChars s.data)⟩

/-- Difficulty level of a Connections group. -/
inductive Level
  | yellow
  | green
  | blue
  | purple
deriving DecidableEq

/-- One group of a Connections puzzle (`ConnectionsGroupSchema`). -/
structure Group where
  level : Level
  category : String
  words : List String
deriving DecidableEq

/-- Terminal/progress status of `ConnectionsEnvState.status`. -/
inductive Status
  | inProgress
  | success
  | fail
  | gaveUp
deriving DecidableEq

/-- The `result` field of `ConnectionsFeedback`. -/
inductive Outcome
  | correct
  | incorrect
  | invalidAction
  | gaveUp
deriving DecidableEq

/-- `ConnectionsFeedback` (the `message` string is not modelled). -/
structure Feedback where
  result : Outcome
  oneAway : Option Bool := none
  foundGroup : Option Group := none
  done : Bool
  status : Option Status := none
deriving DecidableEq

/-- A Connections action (`ConnectionsActionSchema`). -/
inductive Action
  | submitGroup (words : List String)
  | giveUp
deriving DecidableEq

/-- `ConnectionsEnvState`: the mutable play state owned by `ConnectionsEnv`. -/
structure State where
  groups : List Group
  remainingWords : List String
  foundGroups : List Group
  mistakesLeft : Int
  history : List (Action × Feedback)
  stateVersion : Nat
  done : Bool
  status : Status
deriving DecidableEq

/-- `ConnectionsEnv.reset`. The `Math.random` shuffle affects presentation
order only, so the shuffled word order is taken as a parameter. -/
def resetState (groups : List Group) (shuffledWords : List String) : State :=
  { groups := groups
    remainingWords := shuffledWords
    foundGroups := []
    mistakesLeft := 4
    history := []
    stateVersion := 0
    done := false
    status := .inProgress }

/-- The feedback returned on every `invalid_action` rejection
(`done: false`, no other structured fields). -/
def invalidFeedback : Feedback := { result := .invalidAction, done := false }

/-- The normalized words of a group. -/
def normWords (g : Group) : List String := g.words.map normalize

/-- Number of submitted (normalized) words contained in a group, as computed
by `normalizedSubmitted.filter((w) => normalizedGroup.includes(w)).length`. -/
def matchCount (g : Group) (ns : List String) : Nat :=
  (ns.filter (fun w => decide (w ∈ normWords g))).length

/-- Whether some not-yet-found group shares exactly 3 of the submitted words:
the "one away" loop, which skips groups whose category is already among the
found groups. -/
def oneAwayProp (s : State) (ns : List String) : Prop :=
  ∃ g ∈ s.groups,
    (¬ ∃ fg ∈ s.foundGroups, fg.category = g.category) ∧ matchCount g ns = 3

instance (s : State) (ns : List String) : Decidable (oneAwayProp s ns) := by
  unfold oneAwayProp; infer_instance

/-- The accepted-group block of `handleSubmitGroup`: append the matched
group to the found groups, drop its words from the remaining words, and
transition to `success` when it was the fourth group. -/
def acceptGroup (s : State) (g : Group) : State × Feedback :=
  if (s.foundGroups ++ [g]).length = 4 then
    ({ s with foundGroups := s.foundGroups ++ [g],
              remainingWords := s.remainingWords.filter
                (fun w => decide (normalize w ∉ normWords g)),
              done := true, status := .success },
     { result := .correct, foundGroup := some g, done := true,
       status := some .success })
  else
    ({ s with foundGroups := s.foundGroups ++ [g],
              remainingWords := s.remainingWords.filter
                (fun w => decide (normalize w ∉ normWords g)) },
     { result := .correct, foundGroup := some g, done := false })

/-- The no-match block of `handleSubmitGroup`: compute the one-away flag,
consume a mistake, and transition to `fail` when no mistakes remain. -/
def rejectGuess (s : State) (ns : List String) : State × Feedback :=
  if s.mistakesLeft - 1 ≤ 0 then
    ({ s with mistakesLeft := s.mistakesLeft - 1, done := true,
              status := .fail },
     { result := .incorrect, oneAway := some (decide (oneAwayProp s ns)),
       done := true, status := some .fail })
  else
    ({ s with mistakesLeft := s.mistakesLeft - 1 },
     { result := .incorrect, oneAway := some (decide (oneAwayProp s ns)),
       done := false })

/-- `ConnectionsEnv.handleSubmitGroup`.  Guards in source order: exactly 4
words, no duplicates (`new Set(...).size === 4`), every word still remaining;
then the first group matched 4-of-4 is moved from remaining to found
(`acceptGroup`), else a mistake is consumed and the one-away flag computed
over undiscovered groups (`rejectGuess`). -/
def handleSubmitGroup (s : State) (submitted : List String) : State × Feedback :=
  if (submitted.map normalize).length ≠ 4 then (s, invalidFeedback)
  else if ¬ (submitted.map normalize).Nodup then (s, invalidFeedback)
  else if ¬ ∀ w ∈ submitted.map normalize,
      w ∈ s.remainingWords.map normalize then (s, invalidFeedback)
  else
    match s.groups.find?
        (fun g => decide (matchCount g (submitted.map normalize) = 4)) with
    | some g => acceptGroup s g
    | none => rejectGuess s (submitted.map normalize)

/-- The three validation guards of `handleSubmitGroup` taken together:
exactly 4 submitted words, no duplicates after normalization, and every
normalized word still among the normalized remaining words. -/
def guardsOK (s : State) (submitted : List String) : Prop :=
  (submitted.map normalize).length = 4 ∧ (submitted.map normalize).Nodup ∧
    ∀ w ∈ submitted.map normalize, w ∈ s.remainingWords.map normalize

instance (s : State) (submitted : List String) : Decidable (guardsOK s submitted) := by
  unfold guardsOK; infer_instance

/-- `ConnectionsEnv.handleGiveUp`. -/
def handleGiveUp (s : State) : State × Feedback :=
  ({ s with done := true, status := .gaveUp },
   { result := .gaveUp, done := true, status := some .gaveUp })

/-- `ConnectionsEnv.step`: throws when not reset or already done, otherwise
dispatches to the handler, records history and bumps the state version. -/
def step (s? : Option State) (a : Action) : Except String (State × Feedback) :=
  match s? with
  | none => .error "Environment not initialized. Call reset() first."
  | some s =>
    if s.done then .error "Game is already finished."
    else
      let r :=
        match a with
        | .giveUp => handleGiveUp s
        | .submitGroup ws => handleSubmitGroup s ws
      .ok ({ r.1 with history := r.1.history ++ [(a, r.2)],
                      stateVersion := r.1.stateVersion + 1 }, r.2)

/-- Repeated application of `handleSubmitGroup`, keeping only the states. -/
def submitChain (s : State) : List (List String) → State
  | [] => s
  | ws :: rest => submitChain (handleSubmitGroup s ws).1 rest

end Conn

namespace Cross

/-- Clue direction. -/
inductive Direction
  | across
  | down
deriving DecidableEq

/-- `CrosswordClueSchema`: number, clue text, entry length, linear cell
indices. -/
structure Clue where
  number : Nat
  clue : String
  length : Nat
  cells : List Nat
deriving DecidableEq

/-- `CrosswordPuzzleSchema` (metadata omitted; `solution.grid` inlined). -/
structure Puzzle where
  width : Nat
  height : Nat
  grid : List String
  across : List Clue
  down : List Clue
  solution : List String
deriving DecidableEq

/-- `CrosswordEnvConfig`. -/
structure Config where
  allowChecks : Bool
  allowReveals : Bool
deriving DecidableEq

/-- Status set of `CrosswordEnvState.status`. -/
inductive Status
  | inProgress
  | successClean
  | successWithReveals
  | fail
  | gaveUp
deriving DecidableEq

/-- The `result` field of `CrosswordFeedback`. -/
inductive Outcome
  | filled
  | cleared
  | checked
  | submitted
  | invalidAction
  | gaveUp
deriving DecidableEq

/-- `CrosswordFeedback` (the `message` string is not modelled). -/
structure Feedback where
  result : Outcome
  wrongCells : Option (List Nat) := none
  newlyWrongCells : Option (List Nat) := none
  success : Option Bool := none
  successType : Option Status := none
  incorrectCells : Option (List Nat) := none
  done : Bool
  status : Option Status := none
deriving DecidableEq

/-- A crossword action (`CrosswordActionSchema`). -/
inductive Action
  | fillEntry (direction : Direction) (number : Nat) (answer : String)
  | clearEntry (direction : Direction) (number : Nat)
  | checkEntry (direction : Direction) (number : Nat)
  | submitPuzzle
  | giveUp
deriving DecidableEq

/-- `CrosswordEnvState`. The JS `Set`s become `Finset Nat`. -/
structure State where
  puzzle : Puzzle
  config : Config
  fillGrid : List String
  checkedWrongCells : Finset Nat
  revealedCells : Finset Nat
  history : List (Action × Feedback)
  stateVersion : Nat
  done : Bool
  status : Status
  checksPerformed : Nat
deriving DecidableEq

/-- `CrosswordEnv.reset`: blocks copied from the puzzle grid, everything
else empty. -/
def resetState (p : Puzzle) (cfg : Config) : State :=
  { puzzle := p
    config := cfg
    fillGrid := p.grid.map (fun c => if c = "#" then "#" else ".")
    checkedWrongCells := ∅
    revealedCells := ∅
    history := []
    stateVersion := 0
    done := false
    status := .inProgress
    checksPerformed := 0 }

/-- The `(direction, number) → clue` lookup built by `reset` into `clueMap`:
a `Map.set` loop, so a later clue with the same number wins. -/
def lookupClue (p : Puzzle) (d : Direction) (n : Nat) : Option Clue :=
  let l := match d with | .across => p.across | .down => p.down
  l.foldl (fun acc c => if c.number = n then some c else acc) none

/-- The feedback returned on every crossword `invalid_action` rejection. -/
def invalidFeedback : Feedback := { result := .invalidAction, done := false }

/-- Answer normalization in `handleFillEntry`:
`answer.toUpperCase().replace(/[^A-Z]/g, "")`, as a character list. -/
def normalizeAnswer (answer : String) : List Char :=
  (upperChars answer.data).filter (fun c => decide ('A' ≤ c ∧ c ≤ 'Z'))

/-- The cell-writing loop of `handleFillEntry`: write each letter into its
cell and clear any known-wrong mark on that cell. -/
def writeCells : List String → Finset Nat → List (Nat × Char) → List String × Finset Nat
  | grid, known, [] => (grid, known)
  | grid, known, (i, ch) :: rest =>
    writeCells (grid.set i (String.singleton ch)) (known.erase i) rest

/-- The body of `handleFillEntry` once the clue is found: reject a
normalized-length mismatch (the `/^[A-Z]+$/` test can only fail on the
empty normalized answer), otherwise write the letters and clear the
known-wrong marks on the written cells. -/
def fillWithClue (s : State) (clue : Clue) (answer : String) : State × Feedback :=
  if (normalizeAnswer answer).length ≠ clue.length then (s, invalidFeedback)
  else if (normalizeAnswer answer).isEmpty then (s, invalidFeedback)
  else
    ({ s with
        fillGrid := (writeCells s.fillGrid s.checkedWrongCells
          (clue.cells.zip (normalizeAnswer answer))).1,
        checkedWrongCells := (writeCells s.fillGrid s.checkedWrongCells
          (clue.cells.zip (normalizeAnswer answer))).2 },
     { result := .filled, done := false })

/-- `CrosswordEnv.handleFillEntry`: unknown clue is rejected, otherwise
`fillWithClue`. -/
def handleFillEntry (s : State) (d : Direction) (n : Nat) (answer : String) :
    State × Feedback :=
  match lookupClue s.puzzle d n with
  | none => (s, invalidFeedback)
  | some clue => fillWithClue s clue answer

/-- `CrosswordEnv.handleClearEntry`: blanks each non-revealed cell of the
clue and clears its known-wrong mark. -/
def handleClearEntry (s : State) (d : Direction) (n : Nat) : State × Feedback :=
  match lookupClue s.puzzle d n with
  | none => (s, invalidFeedback)
  | some clue =>
    let r := clue.cells.foldl
      (fun (gk : List String × Finset Nat) i =>
        if i ∈ s.revealedCells then gk else (gk.1.set i ".", gk.2.erase i))
      (s.fillGrid, s.checkedWrongCells)
    ({ s with fillGrid := r.1, checkedWrongCells := r.2 },
     { result := .cleared, done := false })

/-- The cell-comparison loop of `handleCheckEntry`: returns the wrong cells,
the newly wrong cells, and the updated known-wrong set, scanning the clue's
cells in order while mutating the set. -/
def checkCells (fill sol : List String) :
    Finset Nat → List Nat → List Nat × List Nat × Finset Nat
  | known, [] => ([], [], known)
  | known, c :: rest =>
    if fill.getD c "" = sol.getD c "" then checkCells fill sol known rest
    else if c ∈ known then
      let r := checkCells fill sol known rest
      (c :: r.1, r.2.1, r.2.2)
    else
      let r := checkCells fill sol (insert c known) rest
      (c :: r.1, c :: r.2.1, r.2.2)

/-- The body of `handleCheckEntry` once the clue is found and checks are
allowed: reject a not-fully-filled entry, otherwise diff the clue's cells
against the solution, record wrong cells as known-wrong and increment the
checks-performed counter. -/
def checkWithClue (s : State) (clue : Clue) : State × Feedback :=
  if ∃ c ∈ clue.cells, s.fillGrid.getD c "" = "." then (s, invalidFeedback)
  else
    ({ s with
        checkedWrongCells := (checkCells s.fillGrid s.puzzle.solution
          s.checkedWrongCells clue.cells).2.2,
        checksPerformed := s.checksPerformed + 1 },
     { result := .checked,
       wrongCells := some (checkCells s.fillGrid s.puzzle.solution
         s.checkedWrongCells clue.cells).1,
       newlyWrongCells := some (checkCells s.fillGrid s.puzzle.solution
         s.checkedWrongCells clue.cells).2.1,
       done := false })

/-- `CrosswordEnv.handleCheckEntry`: rejected when checks are disabled by
config or the clue is unknown, otherwise `checkWithClue`. -/
def handleCheckEntry (s : State) (d : Direction) (n : Nat) : State × Feedback :=
  if ¬ s.config.allowChecks then (s, invalidFeedback)
  else
    match lookupClue s.puzzle d n with
    | none => (s, invalidFeedback)
    | some clue => checkWithClue s clue

/-- The whole-grid diff of `handleSubmitPuzzle`: every index whose solution
cell is not a block and whose fill differs from the solution. -/
def incorrectCellsOf (s : State) : List Nat :=
  (List.range s.fillGrid.length).filter
    (fun i => decide (s.puzzle.solution.getD i "" ≠ "#" ∧
                      s.fillGrid.getD i "" ≠ s.puzzle.solution.getD i ""))

/-- `CrosswordEnv.handleSubmitPuzzle`: zero mismatches is terminal success
(`success_with_reveals` when any cell was revealed, else `success_clean`);
any mismatch is terminal `fail` carrying the mismatched indices. -/
def handleSubmitPuzzle (s : State) : State × Feedback :=
  if (incorrectCellsOf s).isEmpty then
    ({ s with done := true,
              status := (if 0 < s.revealedCells.card
                then Status.successWithReveals else Status.successClean) },
     { result := .submitted, success := some true,
       successType := some (if 0 < s.revealedCells.card
         then Status.successWithReveals else Status.successClean),
       done := true,
       status := some (if 0 < s.revealedCells.card
         then Status.successWithReveals else Status.successClean) })
  else
    ({ s with done := true, status := .fail },
     { result := .submitted, success := some false,
       incorrectCells := some (incorrectCellsOf s),
       done := true, status := some .fail })

/-- `CrosswordEnv.handleGiveUp`. -/
def handleGiveUp (s : State) : State × Feedback :=
  ({ s with done := true, status := .gaveUp },
   { result := .gaveUp, done := true, status := some .gaveUp })

/-- `CrosswordEnv.step`: throws when not reset or already done, otherwise
dispatches on the action kind, records history and bumps the state version. -/
def step (s? : Option State) (a : Action) : Except String (State × Feedback) :=
  match s? with
  | none => .error "Environment not initialized. Call reset() first."
  | some s =>
    if s.done then .error "Game is already finished."
    else
      let r :=
        match a with
        | .fillEntry d n ans => handleFillEntry s d n ans
        | .clearEntry d n => handleClearEntry s d n
        | .checkEntry d n => handleCheckEntry s d n
        | .submitPuzzle => handleSubmitPuzzle s
        | .giveUp => handleGiveUp s
      .ok ({ r.1 with history := r.1.history ++ [(a, r.2)],
                      stateVersion := r.1.stateVersion + 1 }, r.2)

end Cross

/-!
The per-run step loop shared by `BenchmarkRunner.runSingleEvaluation` and
`ModelWorker.runSingleEvaluation` (both bodies are identical in the parts
the claims touch).  The agent call, parse and environment interaction of
one iteration are abstracted into a per-step input oracle; the loop itself
— the `status` variable initialized to `"error"`, the timeout check at the
head of each iteration, the invalid-action accounting, the cap check, the
done check, and the post-loop timeout adjustment — is modelled exactly.
-/

/-- Terminal status reported by an environment (`getStatus` of either env). -/
inductive EnvStatus
  | inProgress
  | success
  | successClean
  | successWithReveals
  | fail
  | gaveUp
deriving DecidableEq

/-- `RunStatusSchema` of `schemas/config.ts`: the closed set of run summary
statuses. -/
inductive RunStatus
  | successClean
  | successWithReveals
  | success
  | fail
  | timeout
  | error
deriving DecidableEq

/-- The string of each `RunStatusSchema` enum member. -/
def RunStatus.str : RunStatus → String
  | .successClean => "success_clean"
  | .successWithReveals => "success_with_reveals"
  | .success => "success"
  | .fail => "fail"
  | .timeout => "timeout"
  | .error => "error"

/-- The string of each environment status value. -/
def EnvStatus.str : EnvStatus → String
  | .inProgress => "in_progress"
  | .success => "success"
  | .successClean => "success_clean"
  | .successWithReveals => "success_with_reveals"
  | .fail => "fail"
  | .gaveUp => "gave_up"

/-- The `if envStatus === ...` chain both runners execute when the
environment reports done: `success`, `success_clean` and
`success_with_reveals` pass through; `fail` and `gave_up` both become
`fail`; no branch fires for `in_progress`, leaving `status` unchanged. -/
def mapDoneStatus (prev : RunStatus) (es : EnvStatus) : RunStatus :=
  match es with
  | .success => .success
  | .successClean => .successClean
  | .successWithReveals => .successWithReveals
  | .fail => .fail
  | .gaveUp => .fail
  | .inProgress => prev

/-- What one loop iteration observed from the agent call, the parse and the
environment: an API error (no parse attempted), a parse failure, an
exception thrown by `env.step`, or environment feedback with its
`invalid_action` flag and the environment's `isDone`/`getStatus` after the
step. -/
inductive StepEvent
  | apiError
  | parseError
  | envError
  | envFeedback (invalid : Bool) (done : Bool) (envStatus : EnvStatus)
deriving DecidableEq

/-- Per-step oracle input: whether the run timeout had elapsed at the head
of the iteration, and what the iteration observed. -/
structure StepInput where
  timedOut : Bool
  event : StepEvent
deriving DecidableEq

/-- How much one event adds to `invalidActions`: parse failures, environment
exceptions, and `invalid_action` feedback each add one. -/
def StepEvent.invInc : StepEvent → Nat
  | .parseError => 1
  | .envError => 1
  | .envFeedback invalid _ _ => if invalid then 1 else 0
  | .apiError => 0

/-- Whether the event carries terminal environment feedback. -/
def StepEvent.isDoneFb : StepEvent → Bool
  | .envFeedback _ d _ => d
  | _ => false

/-- Total `invalidActions` increments over `fuel` steps starting at `idx`,
assuming no break. -/
def countInvFrom (inputs : Nat → StepInput) : Nat → Nat → Nat
  | _, 0 => 0
  | idx, fuel + 1 => (inputs idx).event.invInc + countInvFrom inputs (idx + 1) fuel

/-- The main step loop of `runSingleEvaluation`, carrying the step index and
the `invalidActions` counter; returns the `status` variable and the final
counter.  `status` starts as `"error"` and is reassigned only at the break
points: the timeout check, the invalid-action cap, and terminal environment
feedback. -/
def runLoopAux (cap : Nat) (inputs : Nat → StepInput) :
    Nat → Nat → Nat → RunStatus × Nat
  | 0, _, inv => (.error, inv)
  | fuel + 1, idx, inv =>
    if (inputs idx).timedOut then (.timeout, inv)
    else
      match (inputs idx).event with
      | .apiError => runLoopAux cap inputs fuel (idx + 1) inv
      | .parseError => runLoopAux cap inputs fuel (idx + 1) (inv + 1)
      | .envError => runLoopAux cap inputs fuel (idx + 1) (inv + 1)
      | .envFeedback invalid done es =>
        if invalid then
          if cap ≤ inv + 1 then (.fail, inv + 1)
          else if done then (mapDoneStatus .error es, inv + 1)
          else runLoopAux cap inputs fuel (idx + 1) (inv + 1)
        else if done then (mapDoneStatus .error es, inv)
        else runLoopAux cap inputs fuel (idx + 1) inv

/-- Loop budgets from `SuiteConfig`: `maxSteps` and `maxInvalidActions`. -/
structure LoopConfig where
  maxSteps : Nat
  maxInvalidActions : Nat
deriving DecidableEq

/-- The full loop plus the post-loop adjustment
`if (status === "error" && elapsed > runTimeout) status = "timeout"`. -/
def runLoop (cfg : LoopConfig) (inputs : Nat → StepInput)
    (finalTimedOut : Bool) : RunStatus × Nat :=
  let r := runLoopAux cfg.maxInvalidActions inputs cfg.maxSteps 0 0
  (if r.1 = .error ∧ finalTimedOut then .timeout else r.1, r.2)

/-!
Concrete fixtures used by witnesses and counterexamples.
-/

/-- A small Connections puzzle: four groups of four one-letter words. -/
def cGroups : List Conn.Group :=
  [⟨.yellow, "G1", ["A", "B", "C", "D"]⟩,
   ⟨.green, "G2", ["E", "F", "G", "H"]⟩,
   ⟨.blue, "G3", ["I", "J", "K", "L"]⟩,
   ⟨.purple, "G4", ["M", "N", "O", "P"]⟩]

/-- The reset state for `cGroups`, in unshuffled order. -/
def cState0 : Conn.State :=
  Conn.resetState cGroups
    ["A", "B", "C", "D", "E", "F", "G", "H",
     "I", "J", "K", "L", "M", "N", "O", "P"]

/-- A terminal Connections state (after a give-up). -/
def cDoneState : Conn.State := (Conn.handleGiveUp cState0).1

/-- A 1×2 crossword: one across clue of length 2, solution "AB". -/
def xPuzzle : Cross.Puzzle :=
  { width := 2, height := 1, grid := [".", "."],
    across := [⟨1, "first two letters", 2, [0, 1]⟩], down := [],
    solution := ["A", "B"] }

/-- The reset state for `xPuzzle` with checks allowed. -/
def xState0 : Cross.State := Cross.resetState xPuzzle ⟨true, false⟩

/-- `xState0` with the across entry filled incorrectly ("AX"). -/
def xStateWrong : Cross.State := { xState0 with fillGrid := ["A", "X"] }

/-- `xState0` with the across entry filled correctly ("AB"). -/
def xStateRight : Cross.State := { xState0 with fillGrid := ["A", "B"] }

/-- Step inputs where a parse failure at step 0 brings the invalid-action
count to the cap, followed by a successful terminal environment step. -/
def c8Inputs : Nat → StepInput := fun i =>
  if i = 0 then ⟨false, .parseError⟩
  else ⟨false, .envFeedback false true .success⟩


/-!
Helper lemmas about the Connections submit handler.
-/

namespace Conn

theorem hsg_invalid (s : State) (ws : List String) (h : ¬ guardsOK s ws) :
    handleSubmitGroup s ws = (s, invalidFeedback) := by
  unfold handleSubmitGroup
  by_cases h4 : (ws.map normalize).length = 4
  · rw [if_neg (not_not_intro h4)]
    by_cases hnd : (ws.map normalize).Nodup
    · rw [if_neg (not_not_intro hnd)]
      have hm : ¬ ∀ w ∈ ws.map normalize, w ∈ s.remainingWords.map normalize :=
        fun hm => h ⟨h4, hnd, hm⟩
      rw [if_pos hm]
    · rw [if_pos hnd]
  · rw [if_pos h4]

theorem hsg_some (s : State) (ws : List String) (g : Group) (hG : guardsOK s ws)
    (hfind : s.groups.find?
      (fun g => decide (matchCount g (ws.map normalize) = 4)) = some g) :
    handleSubmitGroup s ws = acceptGroup s g := by
  obtain ⟨h4, hnd, hm⟩ := hG
  unfold handleSubmitGroup
  rw [if_neg (not_not_intro h4), if_neg (not_not_intro hnd),
    if_neg (not_not_intro hm), hfind]

theorem hsg_none (s : State) (ws : List String) (hG : guardsOK s ws)
    (hfind : s.groups.find?
      (fun g => decide (matchCount g (ws.map normalize) = 4)) = none) :
    handleSubmitGroup s ws = rejectGuess s (ws.map normalize) := by
  obtain ⟨h4, hnd, hm⟩ := hG
  unfold handleSubmitGroup
  rw [if_neg (not_not_intro h4), if_neg (not_not_intro hnd),
    if_neg (not_not_intro hm), hfind]

theorem acceptGroup_facts (s : State) (g : Group) :
    (acceptGroup s g).2.result = .correct ∧
    (acceptGroup s g).1.foundGroups = s.foundGroups ++ [g] ∧
    (acceptGroup s g).1.remainingWords = s.remainingWords.filter
      (fun w => decide (normalize w ∉ normWords g)) ∧
    (acceptGroup s g).1.mistakesLeft = s.mistakesLeft ∧
    (acceptGroup s g).1.groups = s.groups := by
  unfold acceptGroup; split <;> exact ⟨rfl, rfl, rfl, rfl, rfl⟩

theorem rejectGuess_facts (s : State) (ns : List String) :
    (rejectGuess s ns).2.result = .incorrect ∧
    (rejectGuess s ns).2.oneAway = some (decide (oneAwayProp s ns)) ∧
    (rejectGuess s ns).1.mistakesLeft = s.mistakesLeft - 1 ∧
    (rejectGuess s ns).1.remainingWords = s.remainingWords ∧
    (rejectGuess s ns).1.foundGroups = s.foundGroups ∧
    (rejectGuess s ns).1.groups = s.groups := by
  unfold rejectGuess; split <;> exact ⟨rfl, rfl, rfl, rfl, rfl, rfl⟩

theorem rejectGuess_done (s : State) (ns : List String) :
    (s.mistakesLeft - 1 ≤ 0 →
      (rejectGuess s ns).1.done = true ∧
      (rejectGuess s ns).1.status = .fail ∧
      (rejectGuess s ns).2.done = true ∧
      (rejectGuess s ns).2.status = some .fail) ∧
    (0 < s.mistakesLeft - 1 →
      (rejectGuess s ns).1.done = s.done ∧
      (rejectGuess s ns).1.status = s.status ∧
      (rejectGuess s ns).2.done = false) := by
  unfold rejectGuess
  constructor
  · intro h; rw [if_pos h]; exact ⟨rfl, rfl, rfl, rfl⟩
  · intro h; rw [if_neg (by omega)]; exact ⟨rfl, rfl, rfl⟩

theorem matchCount_eq_length_iff (g : Group) (ns : List String) :
    matchCount g ns = ns.length ↔ ∀ w ∈ ns, w ∈ normWords g := by
  unfold matchCount
  constructor
  · intro h w hw
    have heq := (List.filter_sublist (l := ns)
      (p := fun w => decide (w ∈ normWords g))).eq_of_length h
    rw [← heq] at hw
    simpa using (List.mem_filter.mp hw).2
  · intro h
    rw [List.filter_eq_self.mpr (fun a ha => decide_eq_true (h a ha))]

theorem matchCount_four_iff (g : Group) (ns : List String)
    (hg4 : g.words.length = 4) (h4 : ns.length = 4) (hnd : ns.Nodup) :
    matchCount g ns = 4 ↔ ns.toFinset = (normWords g).toFinset := by
  constructor
  · intro h
    have hall : ∀ w ∈ ns, w ∈ normWords g :=
      (matchCount_eq_length_iff g ns).mp (by rw [h4]; exact h)
    apply Finset.eq_of_subset_of_card_le
    · intro w hw
      exact List.mem_toFinset.mpr (hall w (List.mem_toFinset.mp hw))
    · have h1 : (normWords g).toFinset.card ≤ 4 := by
        have hle := List.toFinset_card_le (normWords g)
        have hlen : (normWords g).length = 4 := by
          unfold normWords; rw [List.length_map, hg4]
        omega
      have h2 : ns.toFinset.card = 4 := by
        rw [List.toFinset_card_of_nodup hnd, h4]
      omega
  · intro h
    have hall : ∀ w ∈ ns, w ∈ normWords g := fun w hw =>
      List.mem_toFinset.mp (h ▸ List.mem_toFinset.mpr hw)
    have := (matchCount_eq_length_iff g ns).mpr hall
    rw [this, h4]

theorem guardsOK_iff (s : State) (ws : List String) :
    guardsOK s ws ↔ ws.length = 4 ∧ (ws.map normalize).Nodup ∧
      ∀ w ∈ ws, normalize w ∈ s.remainingWords.map normalize := by
  unfold guardsOK
  rw [List.length_map, List.forall_mem_map]

theorem hsg_correct_iff (s : State) (ws : List String)
    (hg : ∀ g ∈ s.groups, g.words.length = 4) :
    (handleSubmitGroup s ws).2.result = .correct ↔
      guardsOK s ws ∧ ∃ g ∈ s.groups,
        (ws.map normalize).toFinset = (normWords g).toFinset := by
  by_cases hG : guardsOK s ws
  · cases hfind : s.groups.find?
        (fun g => decide (matchCount g (ws.map normalize) = 4)) with
    | some g =>
      rw [hsg_some s ws g hG hfind]
      refine iff_of_true (acceptGroup_facts s g).1 ⟨hG, g,
        List.mem_of_find?_eq_some hfind, ?_⟩
      have hp := List.find?_some hfind
      simp only [decide_eq_true_eq] at hp
      exact (matchCount_four_iff g _ (hg g (List.mem_of_find?_eq_some hfind))
        (by rw [List.length_map, ← List.length_map (f := normalize)]; exact hG.1)
        hG.2.1).mp hp
    | none =>
      rw [hsg_none s ws hG hfind]
      apply iff_of_false
      · rw [(rejectGuess_facts s _).1]; decide
      · rintro ⟨-, g, hgmem, hset⟩
        have h4 : (ws.map normalize).length = 4 := hG.1
        have : matchCount g (ws.map normalize) = 4 :=
          (matchCount_four_iff g _ (hg g hgmem) h4 hG.2.1).mpr hset
        exact List.find?_eq_none.mp hfind g hgmem (decide_eq_true this)
  · rw [hsg_invalid s ws hG]
    exact iff_of_false (by simp [invalidFeedback]) (fun h => hG h.1)

theorem incorrect_facts (t : State) (ws : List String)
    (h : (handleSubmitGroup t ws).2.result = .incorrect) :
    (handleSubmitGroup t ws).1.mistakesLeft = t.mistakesLeft - 1 ∧
    ((handleSubmitGroup t ws).1.mistakesLeft ≤ 0 →
      (handleSubmitGroup t ws).1.done = true ∧
      (handleSubmitGroup t ws).1.status = .fail ∧
      (handleSubmitGroup t ws).2.done = true) ∧
    (0 < (handleSubmitGroup t ws).1.mistakesLeft →
      (handleSubmitGroup t ws).1.done = t.done ∧
      (handleSubmitGroup t ws).2.done = false) := by
  by_cases hG : guardsOK t ws
  · cases hfind : t.groups.find?
        (fun g => decide (matchCount g (ws.map normalize) = 4)) with
    | some g =>
      rw [hsg_some t ws g hG hfind] at h
      rw [(acceptGroup_facts t g).1] at h
      cases h
    | none =>
      rw [hsg_none t ws hG hfind] at *
      have hm := (rejectGuess_facts t (ws.map normalize)).2.2.1
      have hd := rejectGuess_done t (ws.map normalize)
      refine ⟨hm, fun hle => ?_, fun hpos => ?_⟩
      · have h4 := hd.1 (by omega)
        exact ⟨h4.1, h4.2.1, h4.2.2.1⟩
      · have h3 := hd.2 (by omega)
        exact ⟨h3.1, h3.2.2⟩
  · rw [hsg_invalid t ws hG] at h
    cases h

theorem invalid_unchanged (t : State) (ws : List String)
    (h : (handleSubmitGroup t ws).2.result = .invalidAction) :
    (handleSubmitGroup t ws).1 = t := by
  by_cases hG : guardsOK t ws
  · cases hfind : t.groups.find?
        (fun g => decide (matchCount g (ws.map normalize) = 4)) with
    | some g =>
      rw [hsg_some t ws g hG hfind] at h
      rw [(acceptGroup_facts t g).1] at h
      cases h
    | none =>
      rw [hsg_none t ws hG hfind] at h
      rw [(rejectGuess_facts t (ws.map normalize)).1] at h
      cases h
  · rw [hsg_invalid t ws hG]

theorem correct_mistakes (t : State) (ws : List String)
    (h : (handleSubmitGroup t ws).2.result = .correct) :
    (handleSubmitGroup t ws).1.mistakesLeft = t.mistakesLeft := by
  by_cases hG : guardsOK t ws
  · cases hfind : t.groups.find?
        (fun g => decide (matchCount g (ws.map normalize) = 4)) with
    | some g =>
      rw [hsg_some t ws g hG hfind]
      exact (acceptGroup_facts t g).2.2.2.1
    | none =>
      rw [hsg_none t ws hG hfind] at h
      rw [(rejectGuess_facts t (ws.map normalize)).1] at h
      cases h
  · rw [hsg_invalid t ws hG] at h
    cases h

theorem submitChain_mistakes (l : List (List String)) : ∀ s : State,
    (∀ k, k < l.length →
      (handleSubmitGroup (submitChain s (l.take k)) (l.getD k [])).2.result =
        .incorrect) →
    (submitChain s l).mistakesLeft = s.mistakesLeft - l.length := by
  induction l with
  | nil => intro s _; simp [submitChain]
  | cons ws rest ih =>
    intro s hinc
    have h0 := hinc 0 (by simp)
    simp only [List.take_zero, submitChain, List.getD_cons_zero] at h0
    have hm1 := (incorrect_facts s ws h0).1
    have hrest := ih (handleSubmitGroup s ws).1 (fun k hk => by
      have := hinc (k + 1) (by simpa using Nat.succ_lt_succ hk)
      simpa [submitChain] using this)
    simp only [submitChain] at *
    rw [hrest, hm1]
    simp only [List.length_cons]
    push_cast
    ring

end Conn

namespace Conn

theorem submitChain_last4 (s : State) (l : List (List String))
    (hlen : l.length = 4) :
    submitChain s l =
      (handleSubmitGroup (submitChain s (l.take 3)) (l.getD 3 [])).1 := by
  obtain ⟨a, b, c, d, rfl⟩ : ∃ a b c d, l = [a, b, c, d] := by
    cases l with
    | nil => simp at hlen
    | cons a t =>
      cases t with
      | nil => simp at hlen
      | cons b t =>
        cases t with
        | nil => simp at hlen
        | cons c t =>
          cases t with
          | nil => simp at hlen
          | cons d t =>
            cases t with
            | nil => exact ⟨a, b, c, d, rfl⟩
            | cons e t => simp at hlen
  rfl

theorem submitChain_take3_mistakes (s : State) (l : List (List String))
    (hlen : l.length = 4)
    (hinc : ∀ k, k < 4 →
      (handleSubmitGroup (submitChain s (l.take k)) (l.getD k [])).2.result =
        .incorrect) :
    (submitChain s (l.take 3)).mistakesLeft = s.mistakesLeft - 3 := by
  have h := submitChain_mistakes (l.take 3) s ?hyp
  · rw [List.length_take, hlen] at h
    simpa using h
  case hyp =>
    intro k hk
    rw [List.length_take, hlen] at hk
    have hk3 : k < 3 := by simpa using hk
    have htake : (l.take 3).take k = l.take k := by
      rw [List.take_take]
      congr 1
      omega
    have hgetD : (l.take 3).getD k [] = l.getD k [] := by
      rw [List.getD_eq_getElem?_getD, List.getD_eq_getElem?_getD,
        List.getElem?_take, if_pos hk3]
    rw [htake, hgetD]
    exact hinc k (by omega)

end Conn

/-- C1: a `submit_group` submission is accepted (outcome `correct`, moving
the matched group from remaining to discovered) iff exactly 4 words were
submitted, they are pairwise distinct after normalization, all are still
remaining, and they coincide (order-independent, case-insensitive) with the
words of one of the puzzle's groups; any guard violation yields
`invalid_action` with the game state unchanged, and resubmitting the words
of an accepted group yields `invalid_action`, not a second `correct`. -/
theorem C1_submit_group_accept_iff (s : Conn.State) (ws : List String)
    (hg : ∀ g ∈ s.groups, g.words.length = 4) :
    ((Conn.handleSubmitGroup s ws).2.result = Conn.Outcome.correct ↔
      ws.length = 4 ∧ (ws.map Conn.normalize).Nodup ∧
      (∀ w ∈ ws, Conn.normalize w ∈ s.remainingWords.map Conn.normalize) ∧
      ∃ g ∈ s.groups,
        (ws.map Conn.normalize).toFinset = (Conn.normWords g).toFinset) ∧
    (¬ (ws.length = 4 ∧ (ws.map Conn.normalize).Nodup ∧
        ∀ w ∈ ws, Conn.normalize w ∈ s.remainingWords.map Conn.normalize) →
      (Conn.handleSubmitGroup s ws).2.result = Conn.Outcome.invalidAction ∧
      (Conn.handleSubmitGroup s ws).1 = s) ∧
    ((Conn.handleSubmitGroup s ws).2.result = Conn.Outcome.correct →
      ∃ g ∈ s.groups,
        (Conn.handleSubmitGroup s ws).1.foundGroups = s.foundGroups ++ [g] ∧
        (∀ w, w ∈ (Conn.handleSubmitGroup s ws).1.remainingWords ↔
          w ∈ s.remainingWords ∧ Conn.normalize w ∉ Conn.normWords g) ∧
        (ws.map Conn.normalize).toFinset = (Conn.normWords g).toFinset) ∧
    ((Conn.handleSubmitGroup s ws).2.result = Conn.Outcome.correct →
      (Conn.handleSubmitGroup (Conn.handleSubmitGroup s ws).1 ws).2.result =
        Conn.Outcome.invalidAction ∧
      (Conn.handleSubmitGroup (Conn.handleSubmitGroup s ws).1 ws).1 =
        (Conn.handleSubmitGroup s ws).1) := by
  refine ⟨?_, ?_, ?_, ?_⟩
  · rw [Conn.hsg_correct_iff s ws hg]
    rw [show Conn.guardsOK s ws ↔ _ from Conn.guardsOK_iff s ws]
    constructor
    · rintro ⟨⟨h1, h2, h3⟩, hex⟩; exact ⟨h1, h2, h3, hex⟩
    · rintro ⟨h1, h2, h3, hex⟩; exact ⟨⟨h1, h2, h3⟩, hex⟩
  · intro h
    have hng : ¬ Conn.guardsOK s ws :=
      fun hG => h ((Conn.guardsOK_iff s ws).mp hG)
    rw [Conn.hsg_invalid s ws hng]
    exact ⟨rfl, rfl⟩
  · intro hc
    by_cases hG : Conn.guardsOK s ws
    · cases hfind : s.groups.find?
          (fun g => decide (Conn.matchCount g (ws.map Conn.normalize) = 4)) with
      | some g =>
        rw [Conn.hsg_some s ws g hG hfind]
        have hp := List.find?_some hfind
        simp only [decide_eq_true_eq] at hp
        refine ⟨g, List.mem_of_find?_eq_some hfind,
          (Conn.acceptGroup_facts s g).2.1, ?_, ?_⟩
        · intro w
          rw [(Conn.acceptGroup_facts s g).2.2.1, List.mem_filter]
          simp
        · exact (Conn.matchCount_four_iff g _
            (hg g (List.mem_of_find?_eq_some hfind)) hG.1 hG.2.1).mp hp
      | none =>
        rw [Conn.hsg_none s ws hG hfind, (Conn.rejectGuess_facts s _).1] at hc
        cases hc
    · rw [Conn.hsg_invalid s ws hG] at hc
      cases hc
  · intro hc
    by_cases hG : Conn.guardsOK s ws
    · cases hfind : s.groups.find?
          (fun g => decide (Conn.matchCount g (ws.map Conn.normalize) = 4)) with
      | some g =>
        rw [Conn.hsg_some s ws g hG hfind]
        have hp := List.find?_some hfind
        simp only [decide_eq_true_eq] at hp
        have hall : ∀ w ∈ ws.map Conn.normalize, w ∈ Conn.normWords g :=
          (Conn.matchCount_eq_length_iff g _).mp (by rw [hG.1]; exact hp)
        have hrem := (Conn.acceptGroup_facts s g).2.2.1
        have hng : ¬ Conn.guardsOK (Conn.acceptGroup s g).1 ws := by
          rintro ⟨h1, h2, h3⟩
          obtain ⟨w0, hw0⟩ := List.exists_mem_of_length_pos
            (l := ws.map Conn.normalize) (by rw [hG.1]; omega)
          have hw0g : w0 ∈ Conn.normWords g := hall w0 hw0
          have hmem := h3 w0 hw0
          rw [hrem, List.mem_map] at hmem
          obtain ⟨v, hv, hveq⟩ := hmem
          rw [List.mem_filter] at hv
          have hvn : Conn.normalize v ∉ Conn.normWords g := by simpa using hv.2
          rw [← hveq] at hw0g
          exact hvn hw0g
        rw [Conn.hsg_invalid _ ws hng]
        exact ⟨rfl, rfl⟩
      | none =>
        rw [Conn.hsg_none s ws hG hfind, (Conn.rejectGuess_facts s _).1] at hc
        cases hc
    · rw [Conn.hsg_invalid s ws hG] at hc
      cases hc

theorem C1_witness :
    (Conn.handleSubmitGroup cState0 ["a", "b", "c", "d"]).2.result =
      Conn.Outcome.correct :=
  (C1_submit_group_accept_iff cState0 ["a", "b", "c", "d"]
    (by decide)).1.mpr (by decide)

/-- C3: when a valid submission of 4 distinct remaining words matches no
group 4-of-4, the outcome is `incorrect` and the one-away flag is true iff
exactly 3 of the 4 normalized submitted words belong to a single group
whose category is not among the already-found groups, and false otherwise
(already-discovered groups are skipped by the one-away scan). -/
theorem C3_one_away_iff (s : Conn.State) (ws : List String)
    (hG : Conn.guardsOK s ws)
    (hnomatch : ∀ g ∈ s.groups,
      Conn.matchCount g (ws.map Conn.normalize) ≠ 4) :
    (Conn.handleSubmitGroup s ws).2.result = Conn.Outcome.incorrect ∧
    ((Conn.handleSubmitGroup s ws).2.oneAway = some true ↔
      ∃ g ∈ s.groups,
        (¬ ∃ fg ∈ s.foundGroups, fg.category = g.category) ∧
        Conn.matchCount g (ws.map Conn.normalize) = 3) ∧
    ((Conn.handleSubmitGroup s ws).2.oneAway = some false ↔
      ¬ ∃ g ∈ s.groups,
        (¬ ∃ fg ∈ s.foundGroups, fg.category = g.category) ∧
        Conn.matchCount g (ws.map Conn.normalize) = 3) := by
  have hfind : s.groups.find?
      (fun g => decide (Conn.matchCount g (ws.map Conn.normalize) = 4)) = none := by
    rw [List.find?_eq_none]
    intro g hgmem
    simp [hnomatch g hgmem]
  rw [Conn.hsg_none s ws hG hfind]
  have hfacts := Conn.rejectGuess_facts s (ws.map Conn.normalize)
  refine ⟨hfacts.1, ?_, ?_⟩
  · rw [hfacts.2.1]
    simp [Conn.oneAwayProp]
  · rw [hfacts.2.1]
    simp [Conn.oneAwayProp]

theorem C3_witness :
    (Conn.handleSubmitGroup cState0 ["A", "B", "C", "E"]).2.result =
      Conn.Outcome.incorrect :=
  (C3_one_away_iff cState0 ["A", "B", "C", "E"] (by decide) (by decide)).1

/-- C4: every `incorrect` submission decrements mistakes-left by exactly
one, `invalid_action` leaves the game state unchanged and `correct` leaves
mistakes-left unchanged; an `incorrect` submission that brings mistakes-left
to 0 makes the state terminal with status `fail` and `feedback.done = true`;
hence from the reset value of 4 allowed mistakes, four incorrect
submissions leave a terminal failed state whose `step` rejects any further
action. -/
theorem C4_mistake_countdown_and_fail (s : Conn.State) (l : List (List String))
    (hm : s.mistakesLeft = 4) (hlen : l.length = 4)
    (hinc : ∀ k, k < 4 →
      (Conn.handleSubmitGroup (Conn.submitChain s (l.take k))
        (l.getD k [])).2.result = Conn.Outcome.incorrect) :
    (∀ (t : Conn.State) (vs : List String),
      (Conn.handleSubmitGroup t vs).2.result = Conn.Outcome.incorrect →
        (Conn.handleSubmitGroup t vs).1.mistakesLeft = t.mistakesLeft - 1) ∧
    (∀ (t : Conn.State) (vs : List String),
      (Conn.handleSubmitGroup t vs).2.result = Conn.Outcome.invalidAction →
        (Conn.handleSubmitGroup t vs).1 = t) ∧
    (∀ (t : Conn.State) (vs : List String),
      (Conn.handleSubmitGroup t vs).2.result = Conn.Outcome.correct →
        (Conn.handleSubmitGroup t vs).1.mistakesLeft = t.mistakesLeft) ∧
    (∀ (t : Conn.State) (vs : List String),
      (Conn.handleSubmitGroup t vs).2.result = Conn.Outcome.incorrect →
        ((Conn.handleSubmitGroup t vs).1.mistakesLeft ≤ 0 →
          (Conn.handleSubmitGroup t vs).1.done = true ∧
          (Conn.handleSubmitGroup t vs).1.status = Conn.Status.fail ∧
          (Conn.handleSubmitGroup t vs).2.done = true) ∧
        (0 < (Conn.handleSubmitGroup t vs).1.mistakesLeft →
          (Conn.handleSubmitGroup t vs).2.done = false)) ∧
    (Conn.submitChain s l).mistakesLeft = 0 ∧
    (Conn.submitChain s l).done = true ∧
    (Conn.submitChain s l).status = Conn.Status.fail ∧
    ∀ a, Conn.step (some (Conn.submitChain s l)) a =
      Except.error "Game is already finished." := by
  have hEq := Conn.submitChain_last4 s l hlen
  have h3 := hinc 3 (by omega)
  have hm3 : (Conn.submitChain s (l.take 3)).mistakesLeft = s.mistakesLeft - 3 :=
    Conn.submitChain_take3_mistakes s l hlen hinc
  have hif := Conn.incorrect_facts _ _ h3
  have hm4 : (Conn.handleSubmitGroup (Conn.submitChain s (l.take 3))
      (l.getD 3 [])).1.mistakesLeft = 0 := by
    rw [hif.1, hm3, hm]; ring
  have hfin := hif.2.1 (by omega)
  refine ⟨fun t vs h => (Conn.incorrect_facts t vs h).1,
    fun t vs h => Conn.invalid_unchanged t vs h,
    fun t vs h => Conn.correct_mistakes t vs h,
    fun t vs h => ⟨(Conn.incorrect_facts t vs h).2.1,
      fun hp => ((Conn.incorrect_facts t vs h).2.2 hp).2⟩,
    ?_, ?_, ?_, ?_⟩
  · rw [hEq]; exact hm4
  · rw [hEq]; exact hfin.1
  · rw [hEq]; exact hfin.2.1
  · intro a
    rw [hEq]
    generalize (Conn.handleSubmitGroup (Conn.submitChain s (l.take 3))
      (l.getD 3 [])).1 = t at hfin ⊢
    simp [Conn.step, hfin.1]

theorem C4_witness :
    (Conn.submitChain cState0
      [["A", "B", "C", "E"], ["A", "B", "C", "E"],
       ["A", "B", "C", "E"], ["A", "B", "C", "E"]]).status =
      Conn.Status.fail :=
  (C4_mistake_countdown_and_fail cState0
    [["A", "B", "C", "E"], ["A", "B", "C", "E"],
     ["A", "B", "C", "E"], ["A", "B", "C", "E"]]
    rfl rfl (by decide)).2.2.2.2.2.2.1

/-- C9: for both environments, `step` fails before `reset` has been called,
and once the state is terminal (`done = true`) every `step` call, for any
action, fails with the same error; in this functional embedding a failing
`step` returns no successor state, so the environment state is unchanged. -/
theorem C9_step_rejected_when_terminal :
    (∀ a, Conn.step none a =
      Except.error "Environment not initialized. Call reset() first.") ∧
    (∀ (s : Conn.State) (a : Conn.Action), s.done = true →
      Conn.step (some s) a = Except.error "Game is already finished.") ∧
    (∀ a, Cross.step none a =
      Except.error "Environment not initialized. Call reset() first.") ∧
    (∀ (s : Cross.State) (a : Cross.Action), s.done = true →
      Cross.step (some s) a = Except.error "Game is already finished.") := by
  refine ⟨fun a => rfl, fun s a h => ?_, fun a => rfl, fun s a h => ?_⟩
  · simp [Conn.step, h]
  · simp [Cross.step, h]

theorem C9_witness :
    Conn.step (some cDoneState) Conn.Action.giveUp =
      Except.error "Game is already finished." :=
  C9_step_rejected_when_terminal.2.1 cDoneState Conn.Action.giveUp rfl

/-- If no step observes an elapsed timeout or terminal environment
feedback, and the invalid-action increments accumulated over the whole
loop stay below the cap, the loop runs through all its fuel and returns
with the `status` variable still at its initial value `error`. -/
theorem runLoopAux_no_break (cap : Nat) (inputs : Nat → StepInput) :
    ∀ (fuel idx inv : Nat),
      (∀ j, j < fuel → (inputs (idx + j)).timedOut = false ∧
        (inputs (idx + j)).event.isDoneFb = false) →
      inv + countInvFrom inputs idx fuel < cap →
      runLoopAux cap inputs fuel idx inv =
        (RunStatus.error, inv + countInvFrom inputs idx fuel) := by
  intro fuel
  induction fuel with
  | zero => intro idx inv _ _; simp [runLoopAux, countInvFrom]
  | succ fuel ih =>
    intro idx inv hsafe hcap
    have h0 := hsafe 0 (Nat.succ_pos _)
    rw [Nat.add_zero] at h0
    have hshift : ∀ j, j < fuel → (inputs (idx + 1 + j)).timedOut = false ∧
        (inputs (idx + 1 + j)).event.isDoneFb = false := by
      intro j hj
      have h := hsafe (j + 1) (by omega)
      rwa [show idx + (j + 1) = idx + 1 + j by omega] at h
    rw [countInvFrom] at hcap ⊢
    cases hev : (inputs idx).event with
    | apiError =>
      rw [hev] at hcap
      simp only [StepEvent.invInc] at hcap
      have hrec := ih (idx + 1) inv hshift (by omega)
      simp only [runLoopAux, h0.1, Bool.false_eq_true, if_false, hev]
      rw [hrec]
      simp [StepEvent.invInc]
    | parseError =>
      rw [hev] at hcap
      simp only [StepEvent.invInc] at hcap
      have hrec := ih (idx + 1) (inv + 1) hshift (by omega)
      simp only [runLoopAux, h0.1, Bool.false_eq_true, if_false, hev]
      rw [hrec]
      simp [StepEvent.invInc, Nat.add_assoc]
    | envError =>
      rw [hev] at hcap
      simp only [StepEvent.invInc] at hcap
      have hrec := ih (idx + 1) (inv + 1) hshift (by omega)
      simp only [runLoopAux, h0.1, Bool.false_eq_true, if_false, hev]
      rw [hrec]
      simp [StepEvent.invInc, Nat.add_assoc]
    | envFeedback invalid done es =>
      have hdone : done = false := by
        have h := h0.2
        rw [hev] at h
        simpa [StepEvent.isDoneFb] using h
      subst hdone
      rw [hev] at hcap
      simp only [StepEvent.invInc] at hcap
      cases invalid with
      | false =>
        have hrec := ih (idx + 1) inv hshift (by simpa using hcap)
        simp only [runLoopAux, h0.1, Bool.false_eq_true, if_false, hev]
        rw [hrec]
        simp [StepEvent.invInc]
      | true =>
        have hncap : ¬ cap ≤ inv + 1 := by simp at hcap; omega
        have hrec := ih (idx + 1) (inv + 1) hshift (by simp at hcap ⊢; omega)
        simp only [runLoopAux, h0.1, Bool.false_eq_true, if_false, hev,
          if_true, if_neg hncap]
        rw [hrec]
        simp [StepEvent.invInc, Nat.add_assoc]

/-- C2 counterexample: when the environment ends with status `gave_up`,
the status assignment of the step loop produces the run status `"fail"`,
not `"gave_up"` (no member of `RunStatusSchema` is `"gave_up"`). -/
theorem C2_counterexample :
    RunStatus.str (mapDoneStatus RunStatus.error EnvStatus.gaveUp) = "fail" ∧
    "fail" ≠ "gave_up" :=
  ⟨rfl, by decide⟩

/-- C2 (amended): when the environment reports done, the step loop passes
`success`, `success_clean`, `success_with_reveals` and `fail` through
unchanged, but maps `gave_up` to `fail` — the run-status set
(`RunStatusSchema`) contains no `gave_up` value at all. -/
theorem C2_status_mapping :
    (∀ prev, mapDoneStatus prev EnvStatus.success = RunStatus.success) ∧
    (∀ prev, mapDoneStatus prev EnvStatus.successClean =
      RunStatus.successClean) ∧
    (∀ prev, mapDoneStatus prev EnvStatus.successWithReveals =
      RunStatus.successWithReveals) ∧
    (∀ prev, mapDoneStatus prev EnvStatus.fail = RunStatus.fail) ∧
    (∀ prev, mapDoneStatus prev EnvStatus.gaveUp = RunStatus.fail) ∧
    (∀ es : EnvStatus, runLoop ⟨1, 5⟩
      (fun _ => ⟨false, StepEvent.envFeedback false true es⟩) false =
      (mapDoneStatus RunStatus.error es, 0)) := by
  refine ⟨fun _ => rfl, fun _ => rfl, fun _ => rfl, fun _ => rfl,
    fun _ => rfl, fun es => ?_⟩
  cases es <;> rfl

/-- C8 counterexample: with `maxInvalidActions = 1`, a parse failure at
step 0 brings the invalid-action count to the cap, yet the run does not
stop there with `fail`: it continues and finishes `success` at step 1. -/
theorem C8_counterexample :
    runLoop ⟨2, 1⟩ c8Inputs false = (RunStatus.success, 1) ∧
    countInvFrom c8Inputs 0 1 = 1 ∧
    RunStatus.success ≠ RunStatus.fail := by
  decide

/-- C8 (amended): parse failures, environment-step exceptions, and
`invalid_action` feedback each increment the invalid-action count by one,
but the cap is checked only after an `invalid_action`-feedback increment:
there the run stops immediately with `fail` once the count reaches the
cap, while a parse failure (or environment exception) that brings the
count to the cap does not stop the run at that step, and an API error
does not increment the count. -/
theorem C8_invalid_action_accounting (cap : Nat) (inputs : Nat → StepInput)
    (fuel idx inv : Nat) (ht : (inputs idx).timedOut = false) :
    ((inputs idx).event = StepEvent.parseError →
      runLoopAux cap inputs (fuel + 1) idx inv =
        runLoopAux cap inputs fuel (idx + 1) (inv + 1)) ∧
    ((inputs idx).event = StepEvent.envError →
      runLoopAux cap inputs (fuel + 1) idx inv =
        runLoopAux cap inputs fuel (idx + 1) (inv + 1)) ∧
    ((inputs idx).event = StepEvent.apiError →
      runLoopAux cap inputs (fuel + 1) idx inv =
        runLoopAux cap inputs fuel (idx + 1) inv) ∧
    (∀ d es, (inputs idx).event = StepEvent.envFeedback true d es →
      (cap ≤ inv + 1 →
        runLoopAux cap inputs (fuel + 1) idx inv = (RunStatus.fail, inv + 1)) ∧
      (¬ cap ≤ inv + 1 → d = false →
        runLoopAux cap inputs (fuel + 1) idx inv =
          runLoopAux cap inputs fuel (idx + 1) (inv + 1))) := by
  refine ⟨fun hev => ?_, fun hev => ?_, fun hev => ?_,
    fun d es hev => ⟨fun hcap => ?_, fun hncap hd => ?_⟩⟩
  · simp [runLoopAux, ht, hev]
  · simp [runLoopAux, ht, hev]
  · simp [runLoopAux, ht, hev]
  · simp [runLoopAux, ht, hev, hcap]
  · simp [runLoopAux, ht, hev, hncap, hd]

theorem C8_witness :
    runLoopAux 1 c8Inputs 2 0 0 = runLoopAux 1 c8Inputs 1 1 1 :=
  (C8_invalid_action_accounting 1 c8Inputs 1 0 0 rfl).1 rfl

/-- C10: if the loop runs its full `maxSteps` iterations with no step
observing an elapsed run timeout, no terminal environment feedback, and
the invalid-action count staying below the cap, and the run timeout has
still not elapsed after the loop, the run finalizes with status `error`
(not `fail` and not `timeout`). -/
theorem C10_full_loop_error_status (cfg : LoopConfig) (inputs : Nat → StepInput)
    (hsafe : ∀ j, j < cfg.maxSteps → (inputs j).timedOut = false ∧
      (inputs j).event.isDoneFb = false)
    (hcap : countInvFrom inputs 0 cfg.maxSteps < cfg.maxInvalidActions) :
    (runLoop cfg inputs false).1 = RunStatus.error ∧
    (runLoop cfg inputs false).2 = countInvFrom inputs 0 cfg.maxSteps ∧
    RunStatus.error ≠ RunStatus.fail ∧
    RunStatus.error ≠ RunStatus.timeout := by
  have h := runLoopAux_no_break cfg.maxInvalidActions inputs cfg.maxSteps 0 0
    (fun j hj => by simpa using hsafe j hj) (by simpa using hcap)
  simp only [runLoop]
  rw [h]
  exact ⟨by simp, by simp, by decide, by decide⟩

theorem C10_witness :
    (runLoop ⟨3, 5⟩ (fun _ => ⟨false, StepEvent.apiError⟩) false).1 =
      RunStatus.error :=
  (C10_full_loop_error_status ⟨3, 5⟩ (fun _ => ⟨false, StepEvent.apiError⟩)
    (fun j hj => ⟨rfl, rfl⟩) (by decide)).1

/-!
Helper lemmas about the Crossword handlers.
-/

namespace Cross

theorem checkCells_wrong_mem (fill sol : List String) :
    ∀ (cells : List Nat) (known : Finset Nat) (i : Nat),
      i ∈ (checkCells fill sol known cells).1 ↔
        i ∈ cells ∧ fill.getD i "" ≠ sol.getD i "" := by
  intro cells
  induction cells with
  | nil => intro known i; simp [checkCells]
  | cons c rest ih =>
    intro known i
    by_cases hc : fill.getD c "" = sol.getD c ""
    · rw [checkCells, if_pos hc, ih known, List.mem_cons]
      constructor
      · rintro ⟨h1, h2⟩; exact ⟨Or.inr h1, h2⟩
      · rintro ⟨rfl | h1, h2⟩
        · exact absurd hc h2
        · exact ⟨h1, h2⟩
    · by_cases hk : c ∈ known
      · rw [checkCells, if_neg hc, if_pos hk, List.mem_cons, ih known,
          List.mem_cons]
        constructor
        · rintro (rfl | ⟨h1, h2⟩)
          · exact ⟨Or.inl rfl, hc⟩
          · exact ⟨Or.inr h1, h2⟩
        · rintro ⟨rfl | h1, h2⟩
          · exact Or.inl rfl
          · exact Or.inr ⟨h1, h2⟩
      · rw [checkCells, if_neg hc, if_neg hk, List.mem_cons,
          ih (insert c known), List.mem_cons]
        constructor
        · rintro (rfl | ⟨h1, h2⟩)
          · exact ⟨Or.inl rfl, hc⟩
          · exact ⟨Or.inr h1, h2⟩
        · rintro ⟨rfl | h1, h2⟩
          · exact Or.inl rfl
          · exact Or.inr ⟨h1, h2⟩

theorem checkCells_newly_mem (fill sol : List String) :
    ∀ (cells : List Nat) (known : Finset Nat) (i : Nat),
      i ∈ (checkCells fill sol known cells).2.1 ↔
        i ∈ cells ∧ fill.getD i "" ≠ sol.getD i "" ∧ i ∉ known := by
  intro cells
  induction cells with
  | nil => intro known i; simp [checkCells]
  | cons c rest ih =>
    intro known i
    by_cases hc : fill.getD c "" = sol.getD c ""
    · rw [checkCells, if_pos hc, ih known, List.mem_cons]
      constructor
      · rintro ⟨h1, h2, h3⟩; exact ⟨Or.inr h1, h2, h3⟩
      · rintro ⟨rfl | h1, h2, h3⟩
        · exact absurd hc h2
        · exact ⟨h1, h2, h3⟩
    · by_cases hk : c ∈ known
      · rw [checkCells, if_neg hc, if_pos hk, ih known, List.mem_cons]
        constructor
        · rintro ⟨h1, h2, h3⟩; exact ⟨Or.inr h1, h2, h3⟩
        · rintro ⟨rfl | h1, h2, h3⟩
          · exact absurd hk h3
          · exact ⟨h1, h2, h3⟩
      · rw [checkCells, if_neg hc, if_neg hk, List.mem_cons,
          ih (insert c known), List.mem_cons]
        constructor
        · rintro (rfl | ⟨h1, h2, h3⟩)
          · exact ⟨Or.inl rfl, hc, hk⟩
          · exact ⟨Or.inr h1, h2,
              fun hm => h3 (Finset.mem_insert_of_mem hm)⟩
        · rintro ⟨hmem, h2, h3⟩
          by_cases hic : i = c
          · exact Or.inl hic
          · rcases hmem with rfl | h1
            · exact absurd rfl hic
            · exact Or.inr ⟨h1, h2,
                fun hm => (Finset.mem_insert.mp hm).elim hic h3⟩

theorem checkCells_known_mem (fill sol : List String) :
    ∀ (cells : List Nat) (known : Finset Nat) (i : Nat),
      i ∈ (checkCells fill sol known cells).2.2 ↔
        i ∈ known ∨ (i ∈ cells ∧ fill.getD i "" ≠ sol.getD i "") := by
  intro cells
  induction cells with
  | nil => intro known i; simp [checkCells]
  | cons c rest ih =>
    intro known i
    by_cases hc : fill.getD c "" = sol.getD c ""
    · rw [checkCells, if_pos hc, ih known, List.mem_cons]
      constructor
      · rintro (h | ⟨h1, h2⟩)
        · exact Or.inl h
        · exact Or.inr ⟨Or.inr h1, h2⟩
      · rintro (h | ⟨rfl | h1, h2⟩)
        · exact Or.inl h
        · exact absurd hc h2
        · exact Or.inr ⟨h1, h2⟩
    · by_cases hk : c ∈ known
      · rw [checkCells, if_neg hc, if_pos hk, ih known, List.mem_cons]
        constructor
        · rintro (h | ⟨h1, h2⟩)
          · exact Or.inl h
          · exact Or.inr ⟨Or.inr h1, h2⟩
        · rintro (h | ⟨rfl | h1, h2⟩)
          · exact Or.inl h
          · exact Or.inl hk
          · exact Or.inr ⟨h1, h2⟩
      · rw [checkCells, if_neg hc, if_neg hk, ih (insert c known),
          List.mem_cons]
        constructor
        · rintro (h | ⟨h1, h2⟩)
          · rcases Finset.mem_insert.mp h with rfl | h'
            · exact Or.inr ⟨Or.inl rfl, hc⟩
            · exact Or.inl h'
          · exact Or.inr ⟨Or.inr h1, h2⟩
        · rintro (h | ⟨rfl | h1, h2⟩)
          · exact Or.inl (Finset.mem_insert_of_mem h)
          · exact Or.inl (Finset.mem_insert_self i known)
          · exact Or.inr ⟨h1, h2⟩

theorem writeCells_length :
    ∀ (pairs : List (Nat × Char)) (grid : List String) (known : Finset Nat),
      (writeCells grid known pairs).1.length = grid.length := by
  intro pairs
  induction pairs with
  | nil => intro grid known; rfl
  | cons p rest ih =>
    intro grid known
    rw [writeCells, ih, List.length_set]

theorem writeCells_getD_not_mem :
    ∀ (pairs : List (Nat × Char)) (grid : List String) (known : Finset Nat)
      (i : Nat), i ∉ pairs.map Prod.fst →
      (writeCells grid known pairs).1.getD i "" = grid.getD i "" := by
  intro pairs
  induction pairs with
  | nil => intro grid known i _; rfl
  | cons p rest ih =>
    intro grid known i h
    rw [List.map_cons, List.mem_cons] at h
    push_neg at h
    rw [writeCells, ih _ _ _ h.2, List.getD_eq_getElem?_getD,
      List.getElem?_set_ne (fun he => h.1 he.symm), ← List.getD_eq_getElem?_getD]

theorem writeCells_known_mem :
    ∀ (pairs : List (Nat × Char)) (grid : List String) (known : Finset Nat)
      (i : Nat),
      i ∈ (writeCells grid known pairs).2 ↔
        i ∈ known ∧ i ∉ pairs.map Prod.fst := by
  intro pairs
  induction pairs with
  | nil => intro grid known i; simp [writeCells]
  | cons p rest ih =>
    intro grid known i
    rw [writeCells, ih, List.map_cons, List.mem_cons, Finset.mem_erase]
    constructor
    · rintro ⟨⟨h1, h2⟩, h3⟩
      exact ⟨h2, fun hm => hm.elim h1 h3⟩
    · rintro ⟨h1, h2⟩
      push_neg at h2
      exact ⟨⟨h2.1, h1⟩, h2.2⟩

theorem writeCells_getD_mem :
    ∀ (pairs : List (Nat × Char)) (grid : List String) (known : Finset Nat)
      (j : Nat) (ch : Char),
      (pairs.map Prod.fst).Nodup → (∀ p ∈ pairs, p.1 < grid.length) →
      (j, ch) ∈ pairs →
      (writeCells grid known pairs).1.getD j "" = String.singleton ch := by
  intro pairs
  induction pairs with
  | nil => intro grid known j ch _ _ hmem; cases hmem
  | cons p rest ih =>
    intro grid known j ch hnd hlt hmem
    rw [List.map_cons, List.nodup_cons] at hnd
    rcases List.mem_cons.mp hmem with heq | hmem'
    · cases heq
      rw [writeCells]
      have hnotin : j ∉ rest.map Prod.fst := hnd.1
      rw [writeCells_getD_not_mem rest _ _ j hnotin,
        List.getD_eq_getElem?_getD, List.getElem?_set_self
          (hlt (j, ch) (List.mem_cons_self _ _))]
      rfl
    · rw [writeCells]
      exact ih _ _ j ch hnd.2
        (fun q hq => by rw [List.length_set]; exact hlt q (List.mem_cons_of_mem _ hq))
        hmem'

theorem mem_incorrectCellsOf (s : State) (i : Nat) :
    i ∈ incorrectCellsOf s ↔ i < s.fillGrid.length ∧
      s.puzzle.solution.getD i "" ≠ "#" ∧
      s.fillGrid.getD i "" ≠ s.puzzle.solution.getD i "" := by
  unfold incorrectCellsOf
  rw [List.mem_filter, List.mem_range]
  simp

end Cross

namespace Cross

theorem hce_disabled (s : State) (d : Direction) (n : Nat)
    (h : s.config.allowChecks = false) :
    handleCheckEntry s d n = (s, invalidFeedback) := by
  unfold handleCheckEntry
  rw [if_pos (by simp [h])]

theorem hce_no_clue (s : State) (d : Direction) (n : Nat)
    (hA : s.config.allowChecks = true) (h : lookupClue s.puzzle d n = none) :
    handleCheckEntry s d n = (s, invalidFeedback) := by
  unfold handleCheckEntry
  rw [if_neg (by simp [hA]), h]

theorem hce_some (s : State) (d : Direction) (n : Nat) (clue : Clue)
    (hA : s.config.allowChecks = true)
    (h : lookupClue s.puzzle d n = some clue) :
    handleCheckEntry s d n = checkWithClue s clue := by
  unfold handleCheckEntry
  rw [if_neg (by simp [hA]), h]

theorem hfe_no_clue (s : State) (d : Direction) (n : Nat) (answer : String)
    (h : lookupClue s.puzzle d n = none) :
    handleFillEntry s d n answer = (s, invalidFeedback) := by
  unfold handleFillEntry
  rw [h]

theorem hfe_some (s : State) (d : Direction) (n : Nat) (answer : String)
    (clue : Clue) (h : lookupClue s.puzzle d n = some clue) :
    handleFillEntry s d n answer = fillWithClue s clue answer := by
  unfold handleFillEntry
  rw [h]

end Cross

/-- C5: `submit_puzzle` on a grid whose non-block cells all match the
solution ends the run with `success_with_reveals` when any cell was
revealed and `success_clean` otherwise; any mismatching non-block cell
ends the run with `fail` and the feedback carries exactly the mismatched
cell indices.  The hypothesis states that the fill grid and the solution
agree on block positions, which `reset` guarantees for well-formed puzzles
(the code skips cells whose solution entry is `"#"`). -/
theorem C5_submit_puzzle_classification (s : Cross.State)
    (hblocks : ∀ i, i < s.fillGrid.length →
      (s.fillGrid.getD i "" = "#" ↔ s.puzzle.solution.getD i "" = "#")) :
    ((∀ i, i < s.fillGrid.length → s.fillGrid.getD i "" ≠ "#" →
        s.fillGrid.getD i "" = s.puzzle.solution.getD i "") →
      (Cross.handleSubmitPuzzle s).1.done = true ∧
      (Cross.handleSubmitPuzzle s).2.done = true ∧
      (Cross.handleSubmitPuzzle s).1.status =
        (if 0 < s.revealedCells.card then Cross.Status.successWithReveals
         else Cross.Status.successClean) ∧
      (Cross.handleSubmitPuzzle s).2.status =
        some (if 0 < s.revealedCells.card then Cross.Status.successWithReveals
          else Cross.Status.successClean) ∧
      (Cross.handleSubmitPuzzle s).2.success = some true) ∧
    ((∃ i, i < s.fillGrid.length ∧ s.fillGrid.getD i "" ≠ "#" ∧
        s.fillGrid.getD i "" ≠ s.puzzle.solution.getD i "") →
      (Cross.handleSubmitPuzzle s).1.done = true ∧
      (Cross.handleSubmitPuzzle s).2.done = true ∧
      (Cross.handleSubmitPuzzle s).1.status = Cross.Status.fail ∧
      (Cross.handleSubmitPuzzle s).2.status = some Cross.Status.fail ∧
      (Cross.handleSubmitPuzzle s).2.success = some false ∧
      ∃ ic, (Cross.handleSubmitPuzzle s).2.incorrectCells = some ic ∧
        ∀ i, i ∈ ic ↔ i < s.fillGrid.length ∧ s.fillGrid.getD i "" ≠ "#" ∧
          s.fillGrid.getD i "" ≠ s.puzzle.solution.getD i "") := by
  have hbridge : ∀ i, (i < s.fillGrid.length ∧
      s.puzzle.solution.getD i "" ≠ "#" ∧
      s.fillGrid.getD i "" ≠ s.puzzle.solution.getD i "") ↔
      (i < s.fillGrid.length ∧ s.fillGrid.getD i "" ≠ "#" ∧
      s.fillGrid.getD i "" ≠ s.puzzle.solution.getD i "") := by
    intro i
    constructor
    · rintro ⟨h1, h2, h3⟩
      exact ⟨h1, fun hf => h2 ((hblocks i h1).mp hf), h3⟩
    · rintro ⟨h1, h2, h3⟩
      exact ⟨h1, fun hf => h2 ((hblocks i h1).mpr hf), h3⟩
  constructor
  · intro hall
    have hempty : Cross.incorrectCellsOf s = [] := by
      rw [List.eq_nil_iff_forall_not_mem]
      intro i hi
      rw [Cross.mem_incorrectCellsOf, hbridge] at hi
      exact hi.2.2 (hall i hi.1 hi.2.1)
    refine ⟨?_, ?_, ?_, ?_, ?_⟩ <;>
      simp [Cross.handleSubmitPuzzle, hempty]
  · intro hex
    have hne : Cross.incorrectCellsOf s ≠ [] := by
      obtain ⟨i, h1, h2, h3⟩ := hex
      intro h
      have hi : i ∈ Cross.incorrectCellsOf s := by
        rw [Cross.mem_incorrectCellsOf, hbridge]
        exact ⟨h1, h2, h3⟩
      rw [h] at hi
      cases hi
    have hnif : ¬ ((Cross.incorrectCellsOf s).isEmpty = true) := by
      rw [List.isEmpty_iff]
      exact hne
    refine ⟨?_, ?_, ?_, ?_, ?_, ?_⟩
    · simp [Cross.handleSubmitPuzzle, hnif]
    · simp [Cross.handleSubmitPuzzle, hnif]
    · simp [Cross.handleSubmitPuzzle, hnif]
    · simp [Cross.handleSubmitPuzzle, hnif]
    · simp [Cross.handleSubmitPuzzle, hnif]
    · refine ⟨Cross.incorrectCellsOf s, by simp [Cross.handleSubmitPuzzle, hnif], ?_⟩
      intro i
      rw [Cross.mem_incorrectCellsOf, hbridge]

theorem C5_witness :
    (Cross.handleSubmitPuzzle xStateRight).1.done = true :=
  (C5_submit_puzzle_classification xStateRight (by decide)).1 (by decide) |>.1

/-- C6: `check_entry` returns `invalid_action` with no state change exactly
when checks are disabled by config, the clue does not exist, or the entry
is not fully filled; otherwise it returns `checked` with the set of the
clue's cells whose fill differs from the solution, the subset of those not
already known-wrong (already-known-wrong cells are never re-reported as
newly wrong), records all wrong cells as known-wrong, increments the
checks-performed counter, leaves the grid unchanged, and on a fully
correct entry reports zero wrong cells.  Every reported cell is a genuine
mismatch, and the feedback carries only cell indices — no solution
letters. -/
theorem C6_check_entry_spec (s : Cross.State) (d : Cross.Direction) (n : Nat) :
    (s.config.allowChecks = false →
      (Cross.handleCheckEntry s d n).2.result = Cross.Outcome.invalidAction ∧
      (Cross.handleCheckEntry s d n).1 = s) ∧
    (s.config.allowChecks = true → Cross.lookupClue s.puzzle d n = none →
      (Cross.handleCheckEntry s d n).2.result = Cross.Outcome.invalidAction ∧
      (Cross.handleCheckEntry s d n).1 = s) ∧
    (∀ clue, s.config.allowChecks = true →
      Cross.lookupClue s.puzzle d n = some clue →
      ((∃ c ∈ clue.cells, s.fillGrid.getD c "" = ".") →
        (Cross.handleCheckEntry s d n).2.result = Cross.Outcome.invalidAction ∧
        (Cross.handleCheckEntry s d n).1 = s) ∧
      ((∀ c ∈ clue.cells, s.fillGrid.getD c "" ≠ ".") →
        (Cross.handleCheckEntry s d n).2.result = Cross.Outcome.checked ∧
        (∃ w nw, (Cross.handleCheckEntry s d n).2.wrongCells = some w ∧
          (Cross.handleCheckEntry s d n).2.newlyWrongCells = some nw ∧
          (∀ i, i ∈ w ↔ i ∈ clue.cells ∧
            s.fillGrid.getD i "" ≠ s.puzzle.solution.getD i "") ∧
          (∀ i, i ∈ nw ↔ i ∈ clue.cells ∧
            s.fillGrid.getD i "" ≠ s.puzzle.solution.getD i "" ∧
            i ∉ s.checkedWrongCells) ∧
          ((∀ c ∈ clue.cells,
              s.fillGrid.getD c "" = s.puzzle.solution.getD c "") →
            w = [] ∧ nw = [])) ∧
        (∀ i, i ∈ (Cross.handleCheckEntry s d n).1.checkedWrongCells ↔
          i ∈ s.checkedWrongCells ∨ (i ∈ clue.cells ∧
            s.fillGrid.getD i "" ≠ s.puzzle.solution.getD i "")) ∧
        (Cross.handleCheckEntry s d n).1.checksPerformed =
          s.checksPerformed + 1 ∧
        (Cross.handleCheckEntry s d n).1.fillGrid = s.fillGrid)) := by
  refine ⟨?_, ?_, ?_⟩
  · intro h
    rw [Cross.hce_disabled s d n h]
    exact ⟨rfl, rfl⟩
  · intro hA h
    rw [Cross.hce_no_clue s d n hA h]
    exact ⟨rfl, rfl⟩
  · intro clue hA hc
    constructor
    · intro hex
      rw [Cross.hce_some s d n clue hA hc]
      unfold Cross.checkWithClue
      rw [if_pos hex]
      exact ⟨rfl, rfl⟩
    · intro hall
      have hnex : ¬ ∃ c ∈ clue.cells, s.fillGrid.getD c "" = "." := by
        push_neg
        exact hall
      rw [Cross.hce_some s d n clue hA hc]
      unfold Cross.checkWithClue
      rw [if_neg hnex]
      refine ⟨rfl, ⟨_, _, rfl, rfl, ?_, ?_, ?_⟩, ?_, rfl, rfl⟩
      · intro i
        exact Cross.checkCells_wrong_mem _ _ clue.cells s.checkedWrongCells i
      · intro i
        exact Cross.checkCells_newly_mem _ _ clue.cells s.checkedWrongCells i
      · intro hcorr
        constructor
        · rw [List.eq_nil_iff_forall_not_mem]
          intro i hi
          rw [Cross.checkCells_wrong_mem] at hi
          exact hi.2 (hcorr i hi.1)
        · rw [List.eq_nil_iff_forall_not_mem]
          intro i hi
          rw [Cross.checkCells_newly_mem] at hi
          exact hi.2.1 (hcorr i hi.1)
      · intro i
        exact Cross.checkCells_known_mem _ _ clue.cells s.checkedWrongCells i

theorem C6_witness :
    (Cross.handleCheckEntry xStateWrong Cross.Direction.across 1).2.result =
      Cross.Outcome.checked :=
  ((C6_check_entry_spec xStateWrong Cross.Direction.across 1).2.2
    ⟨1, "first two letters", 2, [0, 1]⟩ rfl rfl).2 (by decide) |>.1

/-- C7 counterexample: the answer `"A-B"` contains a non-letter character,
yet `fill_entry` on a length-2 clue accepts it (outcome `filled`) and
writes `"AB"` into the grid — the code strips non-letters before the
length check instead of rejecting them. -/
theorem C7_counterexample :
    (Cross.handleFillEntry xState0 Cross.Direction.across 1 "A-B").2.result =
      Cross.Outcome.filled ∧
    (Cross.handleFillEntry xState0 Cross.Direction.across 1 "A-B").1.fillGrid =
      ["A", "B"] ∧
    ¬ ∀ c ∈ "A-B".data, c.isAlpha := by
  decide

/-- C7 (amended): `fill_entry` first uppercases the answer and strips all
non-letter characters; it returns `invalid_action` with the state
unchanged exactly when the clue is unknown or the stripped answer's length
differs from the clue's entry length (so an answer containing non-letter
characters is accepted whenever its letters alone fit); otherwise it
writes the stripped uppercase letters into the clue's cells in order and
clears the known-wrong mark on each written cell. -/
theorem C7_fill_entry_normalized (s : Cross.State) (d : Cross.Direction)
    (n : Nat) (answer : String) :
    (Cross.lookupClue s.puzzle d n = none →
      (Cross.handleFillEntry s d n answer).2.result =
        Cross.Outcome.invalidAction ∧
      (Cross.handleFillEntry s d n answer).1 = s) ∧
    (∀ clue, Cross.lookupClue s.puzzle d n = some clue →
      ((Cross.normalizeAnswer answer).length ≠ clue.length →
        (Cross.handleFillEntry s d n answer).2.result =
          Cross.Outcome.invalidAction ∧
        (Cross.handleFillEntry s d n answer).1 = s) ∧
      ((Cross.normalizeAnswer answer).length = clue.length →
        0 < clue.length → clue.cells.length = clue.length →
        clue.cells.Nodup → (∀ c ∈ clue.cells, c < s.fillGrid.length) →
        (Cross.handleFillEntry s d n answer).2.result = Cross.Outcome.filled ∧
        (∀ j ch, (j, ch) ∈ clue.cells.zip (Cross.normalizeAnswer answer) →
          (Cross.handleFillEntry s d n answer).1.fillGrid.getD j "" =
            String.singleton ch) ∧
        (∀ i, i ∉ clue.cells →
          (Cross.handleFillEntry s d n answer).1.fillGrid.getD i "" =
            s.fillGrid.getD i "") ∧
        (∀ i, i ∈ (Cross.handleFillEntry s d n answer).1.checkedWrongCells ↔
          i ∈ s.checkedWrongCells ∧ i ∉ clue.cells))) := by
  refine ⟨?_, ?_⟩
  · intro h
    rw [Cross.hfe_no_clue s d n answer h]
    exact ⟨rfl, rfl⟩
  · intro clue hc
    constructor
    · intro hne
      rw [Cross.hfe_some s d n answer clue hc]
      unfold Cross.fillWithClue
      rw [if_pos hne]
      exact ⟨rfl, rfl⟩
    · intro hlen hpos hcl hnd hlt
      have hle : clue.cells.length ≤ (Cross.normalizeAnswer answer).length := by
        rw [hcl, hlen]
      have hfst : (clue.cells.zip (Cross.normalizeAnswer answer)).map Prod.fst =
          clue.cells := List.map_fst_zip _ _ hle
      have hne : ¬ ((Cross.normalizeAnswer answer).isEmpty = true) := by
        rw [List.isEmpty_iff]
        intro h
        rw [h] at hlen
        simp at hlen
        omega
      rw [Cross.hfe_some s d n answer clue hc]
      unfold Cross.fillWithClue
      rw [if_neg (not_not_intro hlen), if_neg hne]
      refine ⟨rfl, ?_, ?_, ?_⟩
      · intro j ch hmem
        apply Cross.writeCells_getD_mem _ _ _ j ch (by rw [hfst]; exact hnd)
          (fun p hp => hlt p.1 ((List.of_mem_zip hp).1))
          hmem
      · intro i hi
        apply Cross.writeCells_getD_not_mem
        rw [hfst]
        exact hi
      · intro i
        rw [Cross.writeCells_known_mem, hfst]

theorem C7_witness :
    (Cross.handleFillEntry xState0 Cross.Direction.across 1 "AB").2.result =
      Cross.Outcome.filled :=
  ((C7_fill_entry_normalized xState0 Cross.Direction.across 1 "AB").2
    ⟨1, "first two letters", 2, [0, 1]⟩ rfl).2 rfl (by decide) rfl
    (by decide) (by decide) |>.1
